import Mathlib

/-!
Verification of the extension-ingestion core of the vns repository: the
SecurityService validation engine and rate limiter (file
src/app/services/security.service.ts), the DatabaseService object store
(src/app/services/database.service.ts) and the AvatarsService ingestion
pipeline (avatars.service.ts).

JavaScript values flowing through these services are modelled by the
mutual inductive family J / JList / JFields below.  Machine integers do
not occur in the relevant code paths (all counters and sizes are small
nonnegative integers), so Nat and Int are used directly.  Fallible code
is modelled with Except String, mirroring throw new Error(msg); thrown
message strings are reproduced except that quote characters around
interpolated values are elided.
-/

namespace Vns

mutual

/-- A JavaScript value as seen by the services under verification.
The blob constructor models a DOM Blob or File payload carrying only its
byte size; such an object has no own enumerable properties, and
JSON.stringify serialises it as an empty object (both facts are used in
the definitions below).  Objects are insertion-ordered field sequences,
matching the enumeration order of Object.keys and Object.entries.
The JavaScript value undefined is folded into null: the two are
distinguished by the sources only in ways that do not affect the
modelled observable behaviour (noted where relevant). -/
inductive J where
  | null
  | bool (b : Bool)
  | num (n : Int)
  | str (s : String)
  | arr (items : JList)
  | obj (fields : JFields)
  | blob (size : Nat)
deriving DecidableEq, Repr

/-- A sequence of array elements. -/
inductive JList where
  | nil
  | cons (head : J) (tail : JList)
deriving DecidableEq, Repr

/-- An insertion-ordered sequence of object fields. -/
inductive JFields where
  | nil
  | cons (key : String) (val : J) (tail : JFields)
deriving DecidableEq, Repr

end

namespace JList

/-- Array length. -/
def length : JList → Nat
  | .nil => 0
  | .cons _ t => t.length + 1

/-- View as an ordinary list of values. -/
def toList : JList → List J
  | .nil => []
  | .cons h t => h :: t.toList

/-- Build from an ordinary list of values. -/
def ofList : List J → JList
  | [] => .nil
  | h :: t => .cons h (ofList t)

/-- n copies of one value. -/
def replicate : Nat → J → JList
  | 0, _ => .nil
  | n + 1, v => .cons v (replicate n v)

end JList

namespace JFields

/-- Own-property lookup in source order (object keys are unique in the
JavaScript objects that occur here, so first match suffices). -/
def lookup : JFields → String → Option J
  | .nil, _ => none
  | .cons k v t, key => if k == key then some v else t.lookup key

/-- The list of own keys, in insertion order (Object.keys). -/
def keys : JFields → List String
  | .nil => []
  | .cons k _ t => k :: t.keys

/-- Build from an ordinary association list. -/
def ofList : List (String × J) → JFields
  | [] => .nil
  | (k, v) :: t => .cons k v (ofList t)

end JFields

namespace J

/-- JavaScript truthiness of a value. -/
def truthy : J → Bool
  | .null => false
  | .bool b => b
  | .num n => n != 0
  | .str s => s ≠ ""
  | .arr _ => true
  | .obj _ => true
  | .blob _ => true

/-- The JavaScript test typeof v === the string object (true for plain
objects, arrays, blobs and null; the null case is always excluded
separately by the sources before this test matters). -/
def typeofObject : J → Bool
  | .null => true
  | .arr _ => true
  | .obj _ => true
  | .blob _ => true
  | _ => false

/-- Property access v[k]: some value for an own field of a plain object,
none (undefined) otherwise.  Array index and blob properties are never
accessed by name in the modelled code paths. -/
def get? : J → String → Option J
  | .obj fields, k => fields.lookup k
  | _, _ => none

/-- Whether a property is present and truthy (the idiom if v.k of the
sources, with absent properties reading as undefined). -/
def getTruthy : J → String → Bool
  | v, k => match v.get? k with
    | some w => w.truthy
    | none => false

/-- Whether a property is present, truthy and a string (the required
field test of validateAvatarManifest). -/
def getTruthyString : J → String → Bool
  | v, k => match v.get? k with
    | some (.str s) => s ≠ ""
    | _ => false

end J

/-! ## Character-level helpers

The regular expressions of SecurityService are fixed literals; each one
is modelled by a dedicated scanning function over List Char with the
matching semantics of the original pattern (single left-to-right pass,
as String.prototype.replace with a global regex performs).  All the
compared literals are ASCII. -/

/-- ASCII lowercasing of one character, as String.prototype.toLowerCase
acts on the ASCII range. -/
def lowerChar (c : Char) : Char :=
  if 'A' ≤ c ∧ c ≤ 'Z' then Char.ofNat (c.toNat + 32) else c

/-- ASCII lowercasing of a string. -/
def lowerStr (s : String) : String :=
  String.mk (s.toList.map lowerChar)

/-- The list cs begins with pat, comparing case-insensitively. -/
def ciBegins : List Char → List Char → Bool
  | _, [] => true
  | [], _ :: _ => false
  | c :: cs, p :: ps => lowerChar c == lowerChar p && ciBegins cs ps

/-- The pattern occurs case-insensitively somewhere in cs. -/
def ciContainsSub (cs pat : List Char) : Bool :=
  match cs with
  | [] => ciBegins [] pat
  | _ :: rest => ciBegins cs pat || ciContainsSub rest pat

/-- Case-insensitive substring test on strings. -/
def ciContains (s pat : String) : Bool :=
  ciContainsSub s.toList pat.toList

/-- The list cs begins with pat, comparing exactly. -/
def listBegins : List Char → List Char → Bool
  | _, [] => true
  | [], _ :: _ => false
  | c :: cs, p :: ps => c == p && listBegins cs ps

/-- Case-sensitive prefix test on strings (String.prototype.startsWith). -/
def strBegins (s pat : String) : Bool :=
  listBegins s.toList pat.toList

/-- Case-sensitive substring test on strings (String.prototype.includes). -/
def strContainsSub (cs pat : List Char) : Bool :=
  match cs with
  | [] => listBegins [] pat
  | _ :: rest => listBegins cs pat || strContainsSub rest pat

/-- The character class of the regex token for word characters. -/
def isWordChar (c : Char) : Bool :=
  ('a' ≤ c && c ≤ 'z') || ('A' ≤ c && c ≤ 'Z') || ('0' ≤ c && c ≤ '9') || c == '_'

/-- The character class of the regex whitespace token, restricted to the
ASCII whitespace that can occur in the inputs under consideration. -/
def isSpaceChar (c : Char) : Bool :=
  c == ' ' || c == '\t' || c == '\n' || c == '\r'

/-- The apostrophe and double-quote characters, by code point. -/
def aposChar : Char := Char.ofNat 39

def quoteChar : Char := Char.ofNat 34

end Vns

namespace Vns

/-! ## sanitizeHtml

Models SecurityService.sanitizeHtml: a sequence of global regex
replacements removing dangerous markup, followed by HTML entity
encoding.  Each fixed regex literal of the source is modelled by a
matcher that, applied at a position, either fails or returns the
remainder of the input after the matched span; removeScan then performs
the single left-to-right non-overlapping pass that a global replace
with the empty replacement performs.  The dot of the source regexes
does not match a newline; the inputs considered in this development
contain none, so the scan below may ignore that restriction. -/

/-- Consume up to and including the first closing angle bracket (the
span of the regex fragment matching non-bracket characters followed by
the bracket); fails when no closing bracket remains. -/
def consumeToGt : List Char → Option (List Char)
  | [] => none
  | c :: cs => if c == '>' then some cs else consumeToGt cs

/-- Consume (case-insensitively) up to and including the first
occurrence of closer; fails when closer never occurs.  This is the lazy
dot-star followed by a literal closer of the paired-tag regexes. -/
def dropThroughCi (closer : List Char) : List Char → Option (List Char)
  | [] => none
  | c :: cs =>
    if ciBegins (c :: cs) closer then some (List.drop closer.length (c :: cs))
    else dropThroughCi closer cs

/-- Matcher for an open-plus-close tag pair regex (script, iframe,
object): an opening bracket, the tag name, any non-bracket characters,
a closing bracket, the shortest body, then the closing tag. -/
def matchPairedTag (tag : List Char) (cs : List Char) : Option (List Char) :=
  if ciBegins cs ('<' :: tag) then
    match consumeToGt (List.drop (tag.length + 1) cs) with
    | some rest => dropThroughCi ('<' :: '/' :: (tag ++ ['>'])) rest
    | none => none
  else none

/-- Matcher for a single-tag regex (embed, link, meta): an opening
bracket, the tag name, any non-bracket characters, a closing bracket. -/
def matchOpenTag (tag : List Char) (cs : List Char) : Option (List Char) :=
  if ciBegins cs ('<' :: tag) then consumeToGt (List.drop (tag.length + 1) cs)
  else none

/-- Matcher for a case-insensitive literal regex. -/
def matchCiLiteral (pat : List Char) (cs : List Char) : Option (List Char) :=
  if ciBegins cs pat then some (List.drop pat.length cs) else none

/-- Matcher for the inline event-handler regex: the letters o and n, one
or more word characters, optional whitespace, an equals sign.  The
greedy word-character run is taken maximally; regex backtracking into it
can never succeed (a surrendered word character is neither whitespace
nor an equals sign), so this is exact. -/
def matchEventHandler (cs : List Char) : Option (List Char) :=
  if ciBegins cs ['o', 'n'] then
    match List.span isWordChar (List.drop 2 cs) with
    | (w, rest) =>
      if w.isEmpty then none
      else match List.dropWhile isSpaceChar rest with
        | '=' :: r => some r
        | _ => none
  else none

/-- Matcher for the attribute name alternation of the dangerous
attribute regex: an event handler name, href, or src. -/
def matchAttrName (cs : List Char) : Option (List Char) :=
  if ciBegins cs ['o', 'n'] then
    match List.span isWordChar (List.drop 2 cs) with
    | (w, rest) => if w.isEmpty then none else some rest
  else if ciBegins cs ['h', 'r', 'e', 'f'] then some (List.drop 4 cs)
  else if ciBegins cs ['s', 'r', 'c'] then some (List.drop 3 cs)
  else none

/-- Matcher for the dangerous attribute regex: optional whitespace, an
attribute name, optional whitespace, an equals sign, optional
whitespace, a quote character, any non-quote characters, a quote
character (the closing quote need not match the opening one, exactly as
the source regex is written). -/
def matchAttr (cs : List Char) : Option (List Char) :=
  match matchAttrName (List.dropWhile isSpaceChar cs) with
  | none => none
  | some r1 =>
    match List.dropWhile isSpaceChar r1 with
    | '=' :: r2 =>
      match List.dropWhile isSpaceChar r2 with
      | q :: r3 =>
        if q == quoteChar || q == aposChar then
          match List.span (fun c => !(c == quoteChar || c == aposChar)) r3 with
          | (_, q2 :: r4) => if q2 == quoteChar || q2 == aposChar then some r4 else none
          | (_, []) => none
        else none
      | [] => none
    | _ => none

/-- One left-to-right pass removing every non-overlapping match of a
matcher, with explicit fuel.  Every matcher used below consumes at
least one character on success, so with fuel equal to the input length
the fuel never runs out and the zero-fuel branch is unreachable. -/
def removeScanAux (m : List Char → Option (List Char)) : Nat → List Char → List Char
  | 0, cs => cs
  | _ + 1, [] => []
  | fuel + 1, c :: cs =>
    match m (c :: cs) with
    | some rest => removeScanAux m fuel rest
    | none => c :: removeScanAux m fuel cs

def removeScan (m : List Char → Option (List Char)) (cs : List Char) : List Char :=
  removeScanAux m cs.length cs

/-- HTML entity encoding of one character.  The source performs six
sequential global replaces; since no replacement text contains a
character that a later pass rewrites, their composition equals this
single simultaneous pass. -/
def encodeEntityChar (c : Char) : List Char :=
  if c == '&' then "&amp;".toList
  else if c == '<' then "&lt;".toList
  else if c == '>' then "&gt;".toList
  else if c == quoteChar then "&quot;".toList
  else if c == aposChar then "&#x27;".toList
  else if c == '/' then "&#x2F;".toList
  else [c]

/-- SecurityService.sanitizeHtml. -/
def sanitizeHtml (html : String) : String :=
  if html = "" then ""
  else
    let cs := html.toList
    let cs := removeScan (matchPairedTag "script".toList) cs
    let cs := removeScan (matchPairedTag "iframe".toList) cs
    let cs := removeScan (matchPairedTag "object".toList) cs
    let cs := removeScan (matchOpenTag "embed".toList) cs
    let cs := removeScan (matchOpenTag "link".toList) cs
    let cs := removeScan (matchOpenTag "meta".toList) cs
    let cs := removeScan (matchCiLiteral "javascript:".toList) cs
    let cs := removeScan (matchCiLiteral "vbscript:".toList) cs
    let cs := removeScan (matchCiLiteral "data:text/html".toList) cs
    let cs := removeScan matchEventHandler cs
    let cs := removeScan matchAttr cs
    String.mk (cs.foldr (fun c acc => encodeEntityChar c ++ acc) [])

/-! ## Injection patterns and validateString

The injection regexes are tested with the stateful global flag in the
source; in every execution modelled in this development each test either
returns false (leaving the regex cursor at zero) or aborts the
operation, so the stateless reading below coincides with the source
behaviour. -/

/-- First injection pattern: any of apostrophe, semicolon, pipe,
asterisk, plus, or the percent-encoded forms of apostrophe and
semicolon. -/
def injPatChars (cs : List Char) : Bool :=
  cs.any (fun c => c == aposChar || c == ';' || c == '|' || c == '*' || c == '+')
  || ciContainsSub cs "%27".toList || ciContainsSub cs "%3b".toList

/-- The exec pattern at the current position: exec, one or more of
whitespace or plus, then s or x, then p, then at least one word
character.  The greedy run of whitespace-or-plus is maximal; regex
backtracking into it cannot succeed (a surrendered character would have
to match s or x), so this is exact. -/
def execAt (cs : List Char) : Bool :=
  if ciBegins cs "exec".toList then
    match List.span (fun c => isSpaceChar c || c == '+') (List.drop 4 cs) with
    | (sp, rest) =>
      if sp.isEmpty then false
      else match rest with
        | a :: b :: r =>
          (lowerChar a == 's' || lowerChar a == 'x') && lowerChar b == 'p'
            && (match r with | w :: _ => isWordChar w | [] => false)
        | _ => false
  else false

def injPatExec : List Char → Bool
  | [] => false
  | c :: cs => execAt (c :: cs) || injPatExec cs

/-- Some occurrence of the first literal is followed, anywhere later,
by an occurrence of the second (the dot-star patterns such as union
select or drop table). -/
def ciFollowedBy (cs a b : List Char) : Bool :=
  match cs with
  | [] => false
  | c :: rest =>
    (ciBegins (c :: rest) a && ciContainsSub (List.drop a.length (c :: rest)) b)
      || ciFollowedBy rest a b

def injPairs : List (String × String) :=
  [("union", "select"), ("insert", "into"), ("delete", "from"),
   ("update", "set"), ("drop", "table")]

/-- Whether any of the seven injection regexes of the source matches. -/
def hasInjectionPattern (s : String) : Bool :=
  injPatChars s.toList || injPatExec s.toList
    || injPairs.any (fun p => ciFollowedBy s.toList p.1.toList p.2.toList)

/-- The universal return shape of the validation engine. -/
structure ValidationResult where
  isValid : Bool
  errors : List String
  sanitizedValue : Option J := none
deriving DecidableEq, Repr

/-- SecurityService.validateString. -/
def validateString (value : J) (maxLength : Nat := 10000) : ValidationResult :=
  match value with
  | .null => { isValid := false, errors := ["Value cannot be null or undefined"] }
  | .str s =>
    if s.length > maxLength then
      { isValid := false
        errors := ["String exceeds maximum length of " ++ toString maxLength ++ " characters"] }
    else if hasInjectionPattern s then
      { isValid := false, errors := ["String contains potentially malicious content"] }
    else
      { isValid := true, errors := [], sanitizedValue := some (.str (sanitizeHtml s)) }
  | _ => { isValid := false, errors := ["Value must be a string"] }

end Vns

namespace Vns

/-! ## validateObjectKeys and sanitizeObject -/

/-- The reserved property names of SecurityService (field
DANGEROUS_KEYS). -/
def dangerousKeys : List String :=
  ["__proto__", "constructor", "prototype",
   "__defineGetter__", "__defineSetter__", "__lookupGetter__", "__lookupSetter__",
   "toString", "valueOf", "hasOwnProperty"]

/-- Membership of the lowercased key in the reserved set, the test used
both by validateObjectKeys and by the skip branch of sanitizeObject. -/
def isDangerousKey (k : String) : Bool :=
  dangerousKeys.contains (lowerStr k)

/-- The per-key error messages produced by validateObjectKeys. -/
def dangerousKeyErrors : JFields → List String
  | .nil => []
  | .cons k _ t =>
    (if isDangerousKey k then ["Dangerous key " ++ k ++ " is not allowed"] else [])
      ++ dangerousKeyErrors t

/-- SecurityService.validateObjectKeys.  Arrays and blobs satisfy the
typeof object test of the source; their own enumerable keys (array
indices, respectively none) are never in the reserved set, so they
validate successfully. -/
def validateObjectKeys (v : J) : ValidationResult :=
  match v with
  | .null => { isValid := false, errors := ["Value must be a valid object"] }
  | .obj fields =>
    match dangerousKeyErrors fields with
    | [] => { isValid := true, errors := [] }
    | errs => { isValid := false, errors := errs }
  | .arr _ => { isValid := true, errors := [] }
  | .blob _ => { isValid := true, errors := [] }
  | _ => { isValid := false, errors := ["Value must be a valid object"] }

/-- Join a list of error messages with comma-space, as the source does
when embedding them into a thrown message. -/
def joinErrors : List String → String
  | [] => ""
  | [e] => e
  | e :: rest => e ++ ", " ++ joinErrors rest

/-- The maximum recursion depth and array length of SecurityService. -/
def maxObjectDepth : Nat := 10

def maxArrayLength : Nat := 1000

mutual

/-- SecurityService.sanitizeObject.  The source checks, in order: the
depth bound, null, arrays (with the length bound; an exception thrown
while mapping an element propagates), strings (re-validated and
HTML-sanitized; an invalid string throws), plain objects (a reserved
own key makes validateObjectKeys fail, which throws here; otherwise
each field is rebuilt, and an exception thrown while sanitizing one
field value is caught and that field silently dropped), and finally
primitives, returned untouched.  A blob reaches the object branch with
no own enumerable keys and is rebuilt as the empty object. -/
def sanitizeObject (v : J) (depth : Nat) : Except String J :=
  if depth > maxObjectDepth then
    .error ("Object depth exceeds maximum allowed depth of " ++ toString maxObjectDepth)
  else match v with
    | .null => .ok .null
    | .arr items =>
      if items.length > maxArrayLength then
        .error ("Array length exceeds maximum allowed length of " ++ toString maxArrayLength)
      else
        match sanitizeList items (depth + 1) with
        | .ok items2 => .ok (.arr items2)
        | .error e => .error e
    | .str s =>
      match validateString (.str s) with
      | { isValid := true, sanitizedValue := some w, .. } => .ok w
      | r => .error ("Invalid string: " ++ joinErrors r.errors)
    | .obj fields =>
      match validateObjectKeys (.obj fields) with
      | { isValid := true, .. } => .ok (.obj (sanitizeFields fields (depth + 1)))
      | r => .error ("Invalid object keys: " ++ joinErrors r.errors)
    | .blob _ => .ok (.obj .nil)
    | .bool b => .ok (.bool b)
    | .num n => .ok (.num n)

/-- Element-wise sanitization of an array (Array.prototype.map with no
exception handler: the first thrown error propagates). -/
def sanitizeList (items : JList) (depth : Nat) : Except String JList :=
  match items with
  | .nil => .ok .nil
  | .cons h t =>
    match sanitizeObject h depth with
    | .error e => .error e
    | .ok h2 =>
      match sanitizeList t depth with
      | .error e => .error e
      | .ok t2 => .ok (.cons h2 t2)

/-- Field-wise rebuild of an object: reserved keys are skipped, and a
field whose value fails to sanitize is dropped (the per-property try
catch of the source). -/
def sanitizeFields (fields : JFields) (depth : Nat) : JFields :=
  match fields with
  | .nil => .nil
  | .cons k v t =>
    if isDangerousKey k then sanitizeFields t depth
    else
      match sanitizeObject v depth with
      | .ok v2 => .cons k v2 (sanitizeFields t depth)
      | .error _ => sanitizeFields t depth

end

/-! ## Rate limiter -/

/-- One entry of the rate-limit map of SecurityService. -/
structure RateLimitEntry where
  count : Nat
  resetTime : Nat
deriving DecidableEq, Repr

/-- The process-wide rate-limit map, as an insertion-ordered association
list (a JavaScript Map). -/
def RateLimitMap := List (String × RateLimitEntry)
deriving DecidableEq, Repr

/-- Map.set: replace the entry of an existing key in place, otherwise
append. -/
def rlSet (m : RateLimitMap) (key : String) (e : RateLimitEntry) : RateLimitMap :=
  match m with
  | [] => [(key, e)]
  | (k, e0) :: rest =>
    if k == key then (k, e) :: rest else (k, e0) :: rlSet rest key e

/-- Map.get as first-match lookup. -/
def rlGet (m : RateLimitMap) (key : String) : Option RateLimitEntry :=
  match m with
  | [] => none
  | (k, e) :: rest => if k == key then some e else rlGet rest key

/-- SecurityService.checkRateLimit, with the current clock reading
passed explicitly (Date.now of the source).  Returns the decision and
the updated map. -/
def checkRateLimit (now : Nat) (m : RateLimitMap) (key : String)
    (maxRequests : Nat := 100) (windowMs : Nat := 60000) : Bool × RateLimitMap :=
  match rlGet m key with
  | none => (true, rlSet m key { count := 1, resetTime := now + windowMs })
  | some entry =>
    if now > entry.resetTime then
      (true, rlSet m key { count := 1, resetTime := now + windowMs })
    else if entry.count ≥ maxRequests then
      (false, m)
    else
      (true, rlSet m key { count := entry.count + 1, resetTime := entry.resetTime })

end Vns

namespace Vns

/-! ## validateUrl

The source builds a WHATWG URL object and inspects its protocol and
hostname.  parseUrl below models the platform URL constructor for the
absolute URLs that reach this code: a scheme, then for the special
schemes (which tolerate missing or repeated slashes) an authority read
up to the first delimiter, lowercased, with the forbidden host code
points rejected; for non-special schemes the rest is an opaque path and
the hostname is empty.  Userinfo, IPv6 literals, percent-decoding and
IDNA mapping are outside the inputs exercised here and are not
modelled. -/

structure UrlParts where
  protocol : String
  hostname : String
deriving DecidableEq, Repr

/-- Schemes the WHATWG parser treats as special. -/
def specialSchemes : List String := ["http", "https", "ws", "wss", "ftp", "file"]

/-- First character of a scheme: an ASCII letter. -/
def isAlphaChar (c : Char) : Bool :=
  ('a' ≤ c && c ≤ 'z') || ('A' ≤ c && c ≤ 'Z')

/-- Subsequent characters of a scheme. -/
def isSchemeChar (c : Char) : Bool :=
  isAlphaChar c || ('0' ≤ c && c ≤ '9') || c == '+' || c == '-' || c == '.'

/-- Forbidden host code points of the WHATWG host parser (the ASCII
ones; controls are likewise rejected). -/
def isForbiddenHostChar (c : Char) : Bool :=
  c.toNat < 32 || c == ' ' || c == '#' || c == '/' || c == ':' || c == '<' || c == '>'
    || c == '?' || c == '@' || c == '[' || c == '\\' || c == ']' || c == '^'
    || c == '|' || c == '%'

/-- Model of the URL constructor: some parts on success, none when the
constructor would throw. -/
def parseUrl (s : String) : Option UrlParts :=
  match s.toList with
  | [] => none
  | c :: rest =>
    if isAlphaChar c then
      match List.span isSchemeChar rest with
      | (schemeRest, ':' :: tail) =>
        let scheme := String.mk (List.map lowerChar (c :: schemeRest))
        if specialSchemes.contains scheme then
          let afterSlashes := List.dropWhile (fun d => d == '/' || d == '\\') tail
          match List.span
              (fun d => !(d == '/' || d == '\\' || d == '?' || d == '#' || d == ':'))
              afterSlashes with
          | (host, _) =>
            if host.isEmpty then none
            else if host.any isForbiddenHostChar then none
            else some { protocol := scheme ++ ":", hostname := String.mk (List.map lowerChar host) }
        else some { protocol := scheme ++ ":", hostname := "" }
      | _ => none
    else none

/-- The dangerous-pattern regexes of validateUrl, tested against the
whole URL string. -/
def hasDangerousUrlPattern (url : String) : Bool :=
  ciContains url "javascript:" || ciContains url "data:" || ciContains url "vbscript:"
    || ciContains url "file:" || ciContains url "ftp:"

/-- The lexical loopback and private-range hostname test of validateUrl.
Note that the last test matches every hostname beginning with 172 and a
dot, not only the private 172.16.0.0/12 block. -/
def isLocalPrivateHost (h : String) : Bool :=
  h == "localhost" || h == "127.0.0.1" || strBegins h "192.168."
    || strBegins h "10." || strBegins h "172."

/-- SecurityService.validateUrl. -/
def validateUrl (url : String) : ValidationResult :=
  if url = "" then
    { isValid := false, errors := ["URL must be a non-empty string"] }
  else
    match parseUrl url with
    | none => { isValid := false, errors := ["Invalid URL format"] }
    | some u =>
      let errors :=
        (if u.protocol == "http:" || u.protocol == "https:" then []
         else ["Protocol " ++ u.protocol ++ " is not allowed"])
        ++ (if hasDangerousUrlPattern url then ["URL contains dangerous patterns"] else [])
        ++ (if isLocalPrivateHost u.hostname then
              ["Local/private IP addresses are not allowed"] else [])
      if errors.length > 0 then { isValid := false, errors := errors }
      else { isValid := true, errors := [] }

/-- validateUrl as invoked on a manifest field: the source guard
rejects a missing or non-string argument before constructing a URL. -/
def validateUrlField (v : Option J) : ValidationResult :=
  match v with
  | some (.str s) => validateUrl s
  | _ => { isValid := false, errors := ["URL must be a non-empty string"] }

/-! ## validateFile -/

/-- A File object as consumed by validateFile: name, byte size and MIME
type. -/
structure FileDesc where
  name : String
  size : Nat
  mime : String
deriving DecidableEq, Repr

def allowedFileExtensions : List String :=
  [".json", ".png", ".jpg", ".jpeg", ".gif", ".webp", ".svg",
   ".mp3", ".wav", ".ogg", ".txt", ".md"]

def maxFileSize : Nat := 10 * 1024 * 1024

/-- The final segment of the name split on dots (split and pop of the
source): the whole name when it contains no dot. -/
def lastDotSegment (name : String) : String :=
  match List.span (fun c => !(c == '.')) name.toList.reverse with
  | (seg, []) => String.mk seg.reverse
  | (seg, _) => String.mk seg.reverse

/-- MIME types accepted per extension (field mimeExtensionMap). -/
def mimeTypesFor (ext : String) : List String :=
  if ext == ".json" then ["application/json", "text/json"]
  else if ext == ".png" then ["image/png"]
  else if ext == ".jpg" then ["image/jpeg"]
  else if ext == ".jpeg" then ["image/jpeg"]
  else if ext == ".gif" then ["image/gif"]
  else if ext == ".webp" then ["image/webp"]
  else if ext == ".svg" then ["image/svg+xml"]
  else if ext == ".mp3" then ["audio/mpeg"]
  else if ext == ".wav" then ["audio/wav"]
  else if ext == ".ogg" then ["audio/ogg"]
  else if ext == ".txt" then ["text/plain"]
  else if ext == ".md" then ["text/markdown", "text/plain"]
  else []

/-- SecurityService.validateFile, over an optional file (none models a
missing or non-File argument). -/
def validateFile (file : Option FileDesc) : ValidationResult :=
  match file with
  | none => { isValid := false, errors := ["Invalid file object"] }
  | some f =>
    let ext := "." ++ lowerStr (lastDotSegment f.name)
    let errors :=
      (if f.size > maxFileSize then
        ["File size (" ++ toString f.size ++ " bytes) exceeds maximum allowed size ("
          ++ toString maxFileSize ++ " bytes)"] else [])
      ++ (if allowedFileExtensions.contains ext then []
          else ["File extension " ++ ext ++ " is not allowed"])
      ++ (if dangerousKeys.any (fun k => strContainsSub (lowerStr f.name).toList k.toList) then
            ["File name contains dangerous keywords"] else [])
      ++ (if (mimeTypesFor ext).contains f.mime then []
          else ["File MIME type does not match extension"])
    if errors.length > 0 then { isValid := false, errors := errors }
    else { isValid := true, errors := [] }

end Vns

namespace Vns

/-! ## validateAvatarManifest -/

/-- The per-image checks of validateAvatarManifest, for the image at a
given index.  A value that is not a truthy object produces one error
and the remaining checks for that image are skipped (the early return
of the source); the array-membership test for the type field uses
strict equality, so only the exact strings url and local pass it. -/
def imageErrors (i : Nat) (image : J) : List String :=
  if !(image.truthy && image.typeofObject) then
    ["Image at index " ++ toString i ++ " must be an object"]
  else
    let typeStr : Option String :=
      match image.get? "type" with
      | some (.str s) => some s
      | _ => none
    (if image.getTruthyString "key" then []
     else ["Image at index " ++ toString i ++ " missing valid key"])
    ++ (if typeStr == some "url" || typeStr == some "local" then []
        else ["Image at index " ++ toString i ++ " must have type url or local"])
    ++ (if typeStr == some "url" && image.getTruthy "source" then
          match validateUrlField (image.get? "source") with
          | { isValid := true, .. } => []
          | r => ["Image at index " ++ toString i ++ " has invalid URL: " ++ joinErrors r.errors]
        else [])
    ++ (if typeStr == some "local" && !(image.getTruthyString "name") then
          ["Local image at index " ++ toString i ++ " must have a valid name"]
        else [])

/-- The indexed forEach over the images array. -/
def imagesErrors (images : List (Nat × J)) : List String :=
  match images with
  | [] => []
  | (i, image) :: rest => imageErrors i image ++ imagesErrors rest

/-- SecurityService.validateAvatarManifest.  On success the returned
sanitizedValue is the whole manifest passed through sanitizeObject; a
sanitization exception is converted into a validation failure. -/
def validateAvatarManifest (manifest : J) : ValidationResult :=
  if !(manifest.truthy && manifest.typeofObject) then
    { isValid := false, errors := ["Manifest must be a valid object"] }
  else
    let requiredErrors :=
      (if manifest.getTruthyString "key" then []
       else ["Required field key is missing or invalid"])
      ++ (if manifest.getTruthyString "description" then []
          else ["Required field description is missing or invalid"])
    let keyErrors :=
      if manifest.getTruthy "key" then
        match validateString ((manifest.get? "key").getD .null) 64 with
        | { isValid := true, .. } => []
        | r => ["Manifest key validation failed: " ++ joinErrors r.errors]
      else []
    let descErrors :=
      if manifest.getTruthy "description" then
        match validateString ((manifest.get? "description").getD .null) 500 with
        | { isValid := true, .. } => []
        | r => ["Manifest description validation failed: " ++ joinErrors r.errors]
      else []
    let imgErrors :=
      if manifest.getTruthy "images" then
        match manifest.get? "images" with
        | some (.arr images) =>
          if images.length > 50 then ["Too many images in manifest (maximum 50 allowed)"]
          else imagesErrors images.toList.enum
        | _ => ["Images must be an array"]
      else []
    match requiredErrors ++ keyErrors ++ descErrors ++ imgErrors with
    | [] =>
      match sanitizeObject manifest 0 with
      | .ok s => { isValid := true, errors := [], sanitizedValue := some s }
      | .error e =>
        { isValid := false, errors := ["Manifest sanitization failed: " ++ e] }
    | errs => { isValid := false, errors := errs }

end Vns

namespace Vns

/-! ## DatabaseService: name and key validation, data sanitization -/

/-- RESERVED_NAMES of database.service.ts. -/
def reservedNames : List String :=
  ["__proto__", "constructor", "prototype", "toString", "valueOf"]

/-- Characters admitted by the store and database name pattern
(alphanumeric, underscore, hyphen). -/
def isNameChar (c : Char) : Bool :=
  ('a' ≤ c && c ≤ 'z') || ('A' ≤ c && c ≤ 'Z') || ('0' ≤ c && c ≤ '9')
    || c == '_' || c == '-'

/-- DatabaseService.validateStoreName: throws on an empty name, a name
longer than 64 characters, a name with characters outside the allowed
pattern, or a reserved name (compared lowercased). -/
def validateStoreName (name : String) : Except String Unit :=
  if name = "" then .error "Store name must be a non-empty string"
  else if name.length > 64 then
    .error "Store name exceeds maximum length of 64 characters"
  else if !(name.toList.all isNameChar) then
    .error "Store name contains invalid characters. Only alphanumeric, underscore, and hyphen are allowed"
  else if reservedNames.contains (lowerStr name) then
    .error "Store name is reserved and cannot be used"
  else .ok ()

/-- An IndexedDB key as it occurs in this codebase: a string, a number,
or a flat array of strings and numbers (the composite image key). -/
inductive KeyElem where
  | ks (s : String)
  | kn (n : Int)
deriving DecidableEq, Repr

inductive DbKey where
  | ks (s : String)
  | kn (n : Int)
  | karr (elems : List KeyElem)
deriving DecidableEq, Repr

/-- The reserved-name test of validateKey on one key component. -/
def keyElemReserved : KeyElem → Bool
  | .ks s => reservedNames.contains (lowerStr s)
  | .kn _ => false

/-- DatabaseService.validateKey: rejects a string key equal (lowercased)
to a reserved name, and an array key any of whose string components is
reserved.  The null and undefined cases cannot be represented by DbKey
and are handled by the callers modelled below. -/
def validateKey (key : DbKey) : Except String Unit :=
  match key with
  | .ks s =>
    if reservedNames.contains (lowerStr s) then
      .error "Key name is reserved and cannot be used"
    else .ok ()
  | .kn _ => .ok ()
  | .karr elems =>
    if elems.any keyElemReserved then
      .error "Array key component is reserved and cannot be used"
    else .ok ()

mutual

/-- The JSON serialize-then-parse deep copy performed by
DatabaseService.sanitizeData.  On the value trees modelled here it is
the identity except that a blob serialises as an empty object (a Blob
has no own enumerable properties and no toJSON).  Fields holding
undefined, which JSON.stringify drops, are represented by omitting the
field in the first place. -/
def jsonRoundTrip : J → J
  | .null => .null
  | .bool b => .bool b
  | .num n => .num n
  | .str s => .str s
  | .arr items => .arr (jsonRoundTripList items)
  | .obj fields => .obj (jsonRoundTripFields fields)
  | .blob _ => .obj .nil

def jsonRoundTripList : JList → JList
  | .nil => .nil
  | .cons h t => .cons (jsonRoundTrip h) (jsonRoundTripList t)

def jsonRoundTripFields : JFields → JFields
  | .nil => .nil
  | .cons k v t => .cons k (jsonRoundTrip v) (jsonRoundTripFields t)

end

/-- Removal of the top-level reserved keys from the cloned record.  The
source tests each reserved name with the in operator, which also sees
inherited properties, but delete only removes own properties, so the
net effect is removal of the own reserved keys; the names are compared
exactly (no lowercasing).  On a non-object (including an array, whose
own keys are indices) the loop removes nothing. -/
def dropReservedTop : JFields → JFields
  | .nil => .nil
  | .cons k v t =>
    if reservedNames.contains k then dropReservedTop t
    else .cons k v (dropReservedTop t)

/-- DatabaseService.sanitizeData. -/
def sanitizeData (data : J) : J :=
  match data with
  | .null => .null
  | d =>
    match jsonRoundTrip d with
    | .obj fields => .obj (dropReservedTop fields)
    | c => c

/-! ## DatabaseService: the generic object store

A store holding out-of-line keys is a sequence of key-record pairs; put
with an explicit key is an upsert.  Engine-level failures of a healthy
store are not modelled: every validated operation on the pure map
succeeds.  (The avatars stores, which use key paths, are modelled
separately below.) -/

def GenStore := List (DbKey × J)
deriving DecidableEq, Repr

/-- Upsert into the store (IDBObjectStore.put semantics). -/
def storePut : GenStore → DbKey → J → GenStore
  | [], k, v => [(k, v)]
  | (k0, v0) :: rest, k, v =>
    if k0 == k then (k0, v) :: rest else (k0, v0) :: storePut rest k v

/-- Primary-key lookup (IDBObjectStore.get; none models undefined). -/
def storeGet : GenStore → DbKey → Option J
  | [], _ => none
  | (k0, v0) :: rest, k => if k0 == k then some v0 else storeGet rest k

/-- DatabaseService.put with an explicit key: store-name validation and
key validation throw synchronously with their own messages; the record
then passes through sanitizeData and is upserted. -/
def dbPut (storeName : String) (st : GenStore) (record : J) (key : DbKey) :
    Except String GenStore := do
  validateStoreName storeName
  validateKey key
  .ok (storePut st key (sanitizeData record))

/-- DatabaseService.get: after the same validations, the stored record
(or undefined) is returned. -/
def dbGet (storeName : String) (st : GenStore) (key : DbKey) :
    Except String (Option J) := do
  validateStoreName storeName
  validateKey key
  .ok (storeGet st key)

end Vns

namespace Vns

/-! ## AvatarsService: stores and deletion

The avatars database holds two stores: abstracts, keyed by the key
property of the record (key path), and images, keyed by the composite
of the key and avatarKey properties, with a secondary index on
avatarKey.  The literal store and index names used by AvatarsService
(abstracts, images, avatarKey) all pass the name validations of
DatabaseService, so those checks are not repeated in the
avatars-specific operations below. -/

structure AvatarsDb where
  abstracts : List (String × J)
  images : List ((String × String) × J)
deriving DecidableEq, Repr

def emptyAvatarsDb : AvatarsDb := { abstracts := [], images := [] }

/-- Generic upsert for a key-path store (IDBObjectStore.put). -/
def upsert {α : Type} [BEq α] : List (α × J) → α → J → List (α × J)
  | [], k, v => [(k, v)]
  | (k0, v0) :: rest, k, v =>
    if k0 == k then (k0, v) :: rest else (k0, v0) :: upsert rest k v

/-- DatabaseService.put into the abstracts store: the record passes
through sanitizeData, then the engine evaluates the key path on the
sanitized record; a record without a string key property makes the
engine reject, which put wraps into its generic failure. -/
def putAbstract (db : AvatarsDb) (record : J) : Except String AvatarsDb :=
  let s := sanitizeData record
  match s.get? "key" with
  | some (.str k) => .ok { db with abstracts := upsert db.abstracts k s }
  | _ => .error "Failed to store data in database"

/-- DatabaseService.put into the images store, with the composite key
path evaluated on the sanitized record.  Numeric key components would
also be valid IndexedDB keys but never occur in this codebase. -/
def putImage (db : AvatarsDb) (record : J) : Except String AvatarsDb :=
  let s := sanitizeData record
  match s.get? "key", s.get? "avatarKey" with
  | some (.str k), some (.str ak) => .ok { db with images := upsert db.images (k, ak) s }
  | _, _ => .error "Failed to store data in database"

/-- DatabaseService.getAll on the abstracts store (AvatarsService.getAbstracts). -/
def getAbstracts (db : AvatarsDb) : List J :=
  db.abstracts.map Prod.snd

/-- The validateKey filter that clearIndex applies to each key read from
the index before deleting it: both components of the composite image
key must avoid the reserved names. -/
def imageKeyOk (k : String × String) : Bool :=
  !(reservedNames.contains (lowerStr k.1)) && !(reservedNames.contains (lowerStr k.2))

/-- Outcome of a clearIndex run: success, a synchronous validation
throw (raised before any transaction opens and propagated raw to the
caller), or an engine failure (a rejected delete, wrapped by the catch
of clearIndex into its generic message). -/
inductive ClearOutcome where
  | ok
  | syncError (msg : String)
  | engineError (msg : String)
deriving DecidableEq, Repr

/-- DatabaseService.clearIndex on the images store and the avatarKey
index.  The index query must be a truthy string, or the method throws
synchronously.  Otherwise the keys matching the query are read, those
failing validateKey are skipped with a warning, and the remaining keys
are deleted one by one.  failAfter injects an engine failure: when it
is some n, the first n deletions succeed and the next rejects, which
models the documented non-atomic partial deletion (the store keeps the
deletions already performed). -/
def clearIndexImagesRun (db : AvatarsDb) (query : J) (failAfter : Option Nat) :
    ClearOutcome × AvatarsDb :=
  match query with
  | .str q =>
    if q = "" then (.syncError "Index query must be a non-empty string", db)
    else
      let deletable := (db.images.filter (fun e => e.1.2 == q && imageKeyOk e.1)).map Prod.fst
      match failAfter with
      | none =>
        (.ok, { db with images := db.images.filter (fun e => !(deletable.contains e.1)) })
      | some n =>
        let done := deletable.take n
        (.engineError "Failed to clear index from database",
         { db with images := db.images.filter (fun e => !(done.contains e.1)) })
  | _ => (.syncError "Index query must be a non-empty string", db)

/-- The engine-level operations dispatched by a deletion run. -/
inductive DbOp where
  | clearIndexOp
  | deleteAbstractOp
deriving DecidableEq, Repr

/-- The observable outcome of AvatarsService.delete: the surfaced error
if any, the resulting database, and the engine operations that began. -/
structure DeleteRun where
  err : Option String
  db : AvatarsDb
  ops : List DbOp
deriving DecidableEq, Repr

/-- AvatarsService.delete.  The key is validated with validateString
(max length 64); the images index is then cleared, and only after that
promise resolves is the abstract deleted (the then chaining of the
source: when the clear rejects, the then callback is skipped and the
catch converts the error, so the abstract deletion is never attempted).
A synchronous throw from the query validation of clearIndex propagates
raw, before any engine operation.  The abstract delete itself validates
the key against the reserved names; a reserved key rejects inside the
then callback and surfaces through the same catch. -/
def avatarsDelete (db : AvatarsDb) (key : String) (clearFailAfter : Option Nat) : DeleteRun :=
  let kv := validateString (.str key) 64
  if !kv.isValid then
    { err := some ("Invalid key: " ++ joinErrors kv.errors), db := db, ops := [] }
  else
    match clearIndexImagesRun db (.str key) clearFailAfter with
    | (.syncError m, db1) => { err := some m, db := db1, ops := [] }
    | (.engineError _, db1) =>
      { err := some "Failed to delete avatar", db := db1, ops := [.clearIndexOp] }
    | (.ok, db1) =>
      match validateKey (.ks key) with
      | .error _ =>
        { err := some "Failed to delete avatar", db := db1, ops := [.clearIndexOp] }
      | .ok _ =>
        { err := none
          db := { db1 with abstracts := db1.abstracts.filter (fun e => !(e.1 == key)) }
          ops := [.clearIndexOp, .deleteAbstractOp] }

end Vns

namespace Vns

/-! ## AvatarsService: the ingestion pipeline

Network access is abstracted by an oracle: manifestAt gives the parsed
JSON body of a manifest URL (none is a transport error) and blobAt the
byte size of an image response (none is a transport error).  The
pipeline is modelled sequentially; the source fans the per-image work
out over merged observables whose completions are unordered, but every
image targets a distinct composite key in the claims considered here
and the rate-limiter keys are per-URL, so the final state does not
depend on the interleaving. -/

structure FetchOracle where
  manifestAt : String → Option J
  blobAt : String → Option Nat

/-- The observable outcome of an ingestion run. -/
structure RunResult where
  err : Option String
  db : AvatarsDb
  rl : RateLimitMap
deriving DecidableEq, Repr

/-- The per-URL-image loop of loadExtension.  Every failure path skips
the image and continues: an invalid URL and a rate-limit rejection are
checked before the fetch, a transport error, an oversized blob (the
throw inside tap), a sanitization throw (inside switchMap) and a
rejected put are all captured by the catchError of the inner pipe. -/
def processUrlImages (now : Nat) (oracle : FetchOracle) :
    RateLimitMap → AvatarsDb → String → List J → AvatarsDb × RateLimitMap
  | rl, db, _, [] => (db, rl)
  | rl, db, avatarKey, img :: rest =>
    let srcJ := img.get? "source"
    let continue0 := fun (db2 : AvatarsDb) (rl2 : RateLimitMap) =>
      processUrlImages now oracle rl2 db2 avatarKey rest
    if !(validateUrlField srcJ).isValid then continue0 db rl
    else
      let src := match srcJ with
        | some (.str s) => s
        | _ => ""
      match checkRateLimit now rl ("image:" ++ src) 50 with
      | (false, rl2) => continue0 db rl2
      | (true, rl2) =>
        match oracle.blobAt src with
        | none => continue0 db rl2
        | some size =>
          if size > 10 * 1024 * 1024 then continue0 db rl2
          else
            let record := J.obj (.ofList
              [("key", ((img.get? "key").getD .null)),
               ("avatarKey", .str avatarKey),
               ("source", .str src),
               ("blob", .blob size)])
            match sanitizeObject record 0 with
            | .error _ => continue0 db rl2
            | .ok sRec =>
              match putImage db sRec with
              | .error _ => continue0 db rl2
              | .ok db2 => continue0 db2 rl2

/-- The per-local-image loop of loadExtension.  A missing file and a
failed file validation are skipped with a warning, and a rejected put is
absorbed by the promise catch; but a sanitization throw here is not
inside any handler, so it kills the merged stream and fails the whole
run (returned as some message). -/
def processLocalImages (files : List FileDesc) :
    AvatarsDb → String → List J → Option String × AvatarsDb
  | db, _, [] => (none, db)
  | db, avatarKey, img :: rest =>
    let nameOpt : Option String :=
      match img.get? "name" with
      | some (.str s) => some s
      | _ => none
    match nameOpt.bind (fun n => files.find? (fun f => f.name == n)) with
    | none => processLocalImages files db avatarKey rest
    | some file =>
      if !(validateFile (some file)).isValid then processLocalImages files db avatarKey rest
      else
        let record := J.obj (.ofList
          [("key", ((img.get? "key").getD .null)),
           ("avatarKey", .str avatarKey),
           ("source", .null),
           ("blob", .blob file.size)])
        match sanitizeObject record 0 with
        | .error m => (some m, db)
        | .ok sRec =>
          match putImage db sRec with
          | .error _ => processLocalImages files db avatarKey rest
          | .ok db2 => processLocalImages files db2 avatarKey rest

/-- The url and local partitions of the manifest image list (the two
filter calls of loadExtension); none when the images property is not an
array, in which case the filter call itself throws. -/
def imagesOfType (manifest : J) (ty : String) : Option (List J) :=
  match manifest.get? "images" with
  | some (.arr items) =>
    some (items.toList.filter (fun img =>
      match img.get? "type" with
      | some (.str t) => t == ty
      | _ => false))
  | _ => none

/-- AvatarsService.loadExtension, applied to an already sanitized
manifest.  The body of its try block runs first: the clearIndex call
(whose synchronous query validation throws for a missing or empty
manifest key, caught by the try and surfaced as the
Extension-loading-failed error, before any record is touched), then the
sanitization of the abstract record (a throw here likewise), then the
writes: the abstract upsert, the url images, the local images.  Any
error travelling through the merged observables instead surfaces
through handleError with the generic loadExtension message. -/
def loadExtension (now : Nat) (oracle : FetchOracle) (rl : RateLimitMap) (db : AvatarsDb)
    (manifest : J) (source : Option String) (files : List FileDesc) : RunResult :=
  let keyJ := (manifest.get? "key").getD .null
  match clearIndexImagesRun db keyJ none with
  | (.syncError m, db1) => { err := some ("Extension loading failed: " ++ m), db := db1, rl := rl }
  | (.engineError _, db1) =>
    { err := some "Avatar loadExtension failed. Please try again.", db := db1, rl := rl }
  | (.ok, db1) =>
    let defKey := match keyJ with
      | .str s => s
      | _ => ""
    let abstractRec := J.obj (.ofList
      ([("key", keyJ), ("description", (manifest.get? "description").getD .null)]
        ++ (match source with
            | some s => [("source", J.str s)]
            | none => [])))
    match sanitizeObject abstractRec 0 with
    | .error m => { err := some ("Extension loading failed: " ++ m), db := db1, rl := rl }
    | .ok sAbs =>
      match putAbstract db1 sAbs with
      | .error _ =>
        { err := some "Avatar loadExtension failed. Please try again.", db := db1, rl := rl }
      | .ok db2 =>
        match imagesOfType manifest "url", imagesOfType manifest "local" with
        | some urlImgs, some localImgs =>
          match processUrlImages now oracle rl db2 defKey urlImgs with
          | (db3, rl3) =>
            match processLocalImages files db3 defKey localImgs with
            | (none, db4) => { err := none, db := db4, rl := rl3 }
            | (some _, db4) =>
              { err := some "Avatar loadExtension failed. Please try again.", db := db4, rl := rl3 }
        | _, _ =>
          { err := some "Extension loading failed: def.images.filter is not a function"
            db := db2, rl := rl }

/-- AvatarsService.download.  The URL is validated and the download
rate limit consulted before the fetch; the manifest body is then
validated as a manifest, and its sanitized form is ingested.  Every
failure after the rate-limit gate surfaces through handleError as the
generic download message (the transport-status-specific messages of
handleError are folded into the generic one: no claim distinguishes
them). -/
def download (now : Nat) (oracle : FetchOracle) (rl : RateLimitMap) (db : AvatarsDb)
    (url : String) : RunResult :=
  let uv := validateUrl url
  if !uv.isValid then
    { err := some ("Invalid URL: " ++ joinErrors uv.errors), db := db, rl := rl }
  else
    match checkRateLimit now rl ("download:" ++ url) 10 with
    | (false, rl1) =>
      { err := some "Rate limit exceeded for download requests", db := db, rl := rl1 }
    | (true, rl1) =>
      match oracle.manifestAt url with
      | none => { err := some "Avatar download failed. Please try again.", db := db, rl := rl1 }
      | some defJ =>
        let mv := validateAvatarManifest defJ
        if !mv.isValid then
          { err := some "Avatar download failed. Please try again.", db := db, rl := rl1 }
        else
          match mv.sanitizedValue with
          | some sdef =>
            let r := loadExtension now oracle rl1 db sdef (some url) []
            match r.err with
            | some _ => { err := some "Avatar download failed. Please try again.", db := r.db, rl := r.rl }
            | none => r
          | none =>
            { err := some "Avatar download failed. Please try again.", db := db, rl := rl1 }

end Vns

namespace Vns

/-! ## Claim-specific inputs -/

/-- The nested object built by the depth test of the service spec file:
n links of a nested property ending in an empty object. -/
def deepChain : Nat → J
  | 0 => .obj .nil
  | n + 1 => .obj (.cons "nested" (deepChain n) .nil)

/-- A top-level object carrying the reserved own key constructor (the
proto key of the corresponding test is set by literal syntax and is not
an own property, so the own reserved key of that input is constructor). -/
def objWithReservedKey : J :=
  .obj (.cons "name" (.str "John") (.cons "constructor" (.str "bad")
    (.cons "age" (.num 30) .nil)))

/-- An object carrying a reserved key one level down. -/
def objWithNestedReservedKey : J :=
  .obj (.cons "user" (.obj (.cons "name" (.str "John")
    (.cons "constructor" (.str "bad") .nil))) .nil)

/-- The manifest of the script-key scenario: its key is an HTML script
element, its other fields are benign. -/
def scriptKeyManifest : J :=
  .obj (.ofList
    [("key", .str "<script>alert(1)</script>"),
     ("description", .str "A test avatar"),
     ("images", .arr .nil)])

/-- An oracle serving the script-key manifest at every URL. -/
def scriptKeyOracle : FetchOracle :=
  { manifestAt := fun _ => some scriptKeyManifest, blobAt := fun _ => none }

/-- One url image entry of a manifest. -/
def urlImageEntry (k src : String) : J :=
  .obj (.ofList [("key", .str k), ("type", .str "url"), ("source", .str src)])

/-- The manifest of the partial-failure scenario: two url images. -/
def twoImageManifest : J :=
  .obj (.ofList
    [("key", .str "partial-avatar"),
     ("description", .str "Avatar with two images"),
     ("images", .arr (.ofList
       [urlImageEntry "standard" "https:img1.example.com",
        urlImageEntry "broken" "https:img2.example.com"]))])

/-- The oracle of the partial-failure scenario: the manifest is served,
the first image URL is reachable (a small blob), the second is not. -/
def twoImageOracle : FetchOracle :=
  { manifestAt := fun _ => some twoImageManifest
    blobAt := fun u => if u = "https:img1.example.com" then some 1000 else none }

/-! ## Claim C3 -/

theorem replicate_length (n : Nat) (v : J) : (JList.replicate n v).length = n := by
  induction n with
  | zero => rfl
  | succ n ih => simp [JList.replicate, JList.length, ih]

theorem sanitizeList_replicate_item (n : Nat) :
    sanitizeList (JList.replicate n (.str "item")) 1 = .ok (JList.replicate n (.str "item")) := by
  induction n with
  | zero => rfl
  | succ n ih =>
    have h1 : sanitizeObject (.str "item") 1 = .ok (.str "item") := by rfl
    simp [JList.replicate, sanitizeList, h1, ih]

set_option maxRecDepth 4000 in
/-- C3: the claim states that sanitizeObject raises a fatal error the
caller observes on every value of depth over ten; the code instead
catches the depth error inside the per-property handler of the object
branch, so the fifteen-deep chain of its own test returns successfully,
silently truncated at depth ten (first conjunct, the divergence).  The
exact-limit cases and the oversized-array case behave as claimed
(remaining conjuncts). -/
theorem c3_depth_error_swallowed_for_objects :
    sanitizeObject (deepChain 15) 0 = .ok (deepChain 10)
    ∧ sanitizeObject (deepChain 10) 0 = .ok (deepChain 10)
    ∧ sanitizeObject (.arr (JList.replicate 1001 (.str "item"))) 0
        = .error "Array length exceeds maximum allowed length of 1000"
    ∧ sanitizeObject (.arr (JList.replicate 1000 (.str "item"))) 0
        = .ok (.arr (JList.replicate 1000 (.str "item"))) := by
  refine ⟨by rfl, by rfl, ?_, ?_⟩
  · rw [sanitizeObject]
    simp only [replicate_length, maxObjectDepth, maxArrayLength]
    norm_num
    rfl
  · rw [sanitizeObject]
    simp only [replicate_length, maxObjectDepth, maxArrayLength]
    norm_num
    rw [sanitizeList_replicate_item]

/-! ## Claim C4 -/

/-- C4: the claim states that sanitizeObject succeeds on an object
carrying a reserved own key and silently strips that key; the code
instead throws from its key validation when the reserved key is at the
top level (first conjunct), and when the reserved key sits in a nested
object the thrown error is caught by the enclosing per-property handler
and the whole sub-object, benign siblings included, is dropped (second
conjunct), exactly what the stripping tests of the service spec file
reject. -/
theorem c4_reserved_key_throws_instead_of_stripping :
    sanitizeObject objWithReservedKey 0
      = .error "Invalid object keys: Dangerous key constructor is not allowed"
    ∧ sanitizeObject objWithNestedReservedKey 0 = .ok (.obj .nil) := by
  exact ⟨by rfl, by rfl⟩

/-! ## Claim C1 -/

/-- C1, counterexample: the claim states that manifest validation
reports the script-element key invalid; validateAvatarManifest accepts
it (the key passes validateString, whose HTML sanitization strips the
whole script element, and sanitization returns the manifest with an
empty key). -/
theorem c1_counterexample_validation_accepts :
    (validateAvatarManifest scriptKeyManifest).isValid = true := by rfl

/-- C1, amended: validation accepts the manifest, sanitizing its key to
the empty string; the ingestion then fails anyway, not in validation but
at the database layer (the empty sanitized key is rejected by the index
query check of clearIndex inside the loading try block), so the run
surfaces the generic download failure with no AbstractRecord or
ImageRecord written and only the download rate-limit entry touched. -/
theorem c1_amended_accepted_then_rejected_by_store :
    (validateAvatarManifest scriptKeyManifest).isValid = true
    ∧ ((validateAvatarManifest scriptKeyManifest).sanitizedValue.bind
        (fun s => s.get? "key")) = some (.str "")
    ∧ download 0 scriptKeyOracle [] emptyAvatarsDb "https://example.com/manifest.json"
        = { err := some "Avatar download failed. Please try again."
            db := emptyAvatarsDb
            rl := [("download:https://example.com/manifest.json",
                    { count := 1, resetTime := 60000 })] } := by
  exact ⟨by rfl, by rfl, by rfl⟩

/-! ## Claim C6 -/

/-- C6: ingesting the validated two-image manifest, with one image URL
reachable and one not, completes without error; the abstracts store
then contains the AbstractRecord of the extension and exactly one
ImageRecord exists under its extension key (the failed asset was
skipped without failing the run). -/
theorem c6_asset_failure_tolerated :
    (download 0 twoImageOracle [] emptyAvatarsDb "https://example.com/m6.json").err = none
    ∧ (getAbstracts (download 0 twoImageOracle [] emptyAvatarsDb
          "https://example.com/m6.json").db).any
        (fun a => a.get? "key" == some (.str "partial-avatar")) = true
    ∧ ((download 0 twoImageOracle [] emptyAvatarsDb "https://example.com/m6.json").db.images.filter
        (fun e => e.1.2 == "partial-avatar")).length = 1 := by
  exact ⟨by rfl, by rfl, by rfl⟩

end Vns



namespace Vns

/-! ## Claim C7 -/

/-- A sequence of calls to checkRateLimit with one key at one instant,
collecting the returned decisions in call order. -/
def rlCalls (now : Nat) (key : String) (maxRequests windowMs : Nat) :
    Nat → RateLimitMap → List Bool × RateLimitMap
  | 0, m => ([], m)
  | n + 1, m =>
    match checkRateLimit now m key maxRequests windowMs with
    | (b, m1) =>
      match rlCalls now key maxRequests windowMs n m1 with
      | (bs, m2) => (b :: bs, m2)

theorem rlCalls_succ (now : Nat) (key : String) (maxR win n : Nat) (m : RateLimitMap) :
    rlCalls now key maxR win (n + 1) m
      = ((checkRateLimit now m key maxR win).1
            :: (rlCalls now key maxR win n (checkRateLimit now m key maxR win).2).1,
         (rlCalls now key maxR win n (checkRateLimit now m key maxR win).2).2) := rfl

theorem rlGet_rlSet_ne (m : RateLimitMap) (k k2 : String) (e : RateLimitEntry)
    (h : k2 ≠ k) : rlGet (rlSet m k e) k2 = rlGet m k2 := by
  induction m with
  | nil => simp [rlSet, rlGet, Ne.symm h]
  | cons p t ih =>
    by_cases hk : p.1 == k
    · have hp : p.1 = k := by simpa using hk
      simp [rlSet, rlGet, hk, hp, Ne.symm h]
    · by_cases hk2 : p.1 == k2
      · simp [rlSet, rlGet, hk, hk2]
      · simp [rlSet, rlGet, hk, hk2, ih]

/-- Inside one window, starting from a singleton map whose entry has
count c, a run of j further calls within budget at the same instant
returns true each time and leaves the count at c + j. -/
theorem rlCalls_inside_window (now : Nat) (key : String) (win maxR : Nat) :
    ∀ j c, 1 ≤ c → c + j ≤ maxR →
      rlCalls now key maxR win j [(key, { count := c, resetTime := now + win })]
        = (List.replicate j true, [(key, { count := c + j, resetTime := now + win })]) := by
  intro j
  induction j with
  | zero => intro c _ _; simp [rlCalls]
  | succ j ih =>
    intro c hc hle
    have hlt : c < maxR := by omega
    have hnow : ¬ now > now + win := by omega
    have step : checkRateLimit now [(key, { count := c, resetTime := now + win })] key maxR win
        = (true, [(key, { count := c + 1, resetTime := now + win })]) := by
      simp [checkRateLimit, rlGet, hnow, rlSet, Nat.not_le.mpr hlt]
    rw [rlCalls_succ]
    simp only [step]
    rw [ih (c + 1) (by omega) (by omega)]
    have hc2 : c + 1 + j = c + (j + 1) := by omega
    rw [hc2]
    simp [List.replicate_succ]

/-- A run of j + 1 calls that starts with exactly j requests of budget
left returns true j times, then false, and the counter stays at the
budget (the rejected call does not increment it). -/
theorem rlCalls_hits_limit (now : Nat) (key : String) (win maxR : Nat) :
    ∀ j c, 1 ≤ c → c + j = maxR →
      rlCalls now key maxR win (j + 1) [(key, { count := c, resetTime := now + win })]
        = (List.replicate j true ++ [false],
           [(key, { count := maxR, resetTime := now + win })]) := by
  intro j
  induction j with
  | zero =>
    intro c _ hc
    have hnow : ¬ now > now + win := by omega
    have step : checkRateLimit now [(key, { count := c, resetTime := now + win })] key maxR win
        = (false, [(key, { count := c, resetTime := now + win })]) := by
      simp [checkRateLimit, rlGet, hnow, show maxR ≤ c by omega]
    have hcm : c = maxR := by omega
    subst hcm
    rw [rlCalls_succ]
    simp [step, rlCalls]
  | succ j ih =>
    intro c hc hle
    have hlt : c < maxR := by omega
    have hnow : ¬ now > now + win := by omega
    have step : checkRateLimit now [(key, { count := c, resetTime := now + win })] key maxR win
        = (true, [(key, { count := c + 1, resetTime := now + win })]) := by
      simp [checkRateLimit, rlGet, hnow, rlSet, Nat.not_le.mpr hlt]
    rw [rlCalls_succ]
    simp only [step]
    rw [ih (c + 1) (by omega) (by omega)]
    simp [List.replicate_succ]

/-- C7: within one window, the first n calls on a key with budget n all
return true; the call after them returns false and leaves the counter
at n (no further increment); once the current instant passes the window
reset time, the next call returns true again; and the counters of
distinct keys are fully independent (a call on one key never changes
the entry of another, and the decision for a key is a function of that
key's entry alone). -/
theorem c7_rate_limit_window (k k2 : String) (n win t t2 : Nat) (s : RateLimitMap)
    (hn : 1 ≤ n) (hk : k2 ≠ k) (ht : t + win < t2) :
    (rlCalls t k n win n []).1 = List.replicate n true
    ∧ rlCalls t k n win (n + 1) []
        = (List.replicate n true ++ [false], [(k, { count := n, resetTime := t + win })])
    ∧ (checkRateLimit t2 (rlCalls t k n win (n + 1) []).2 k n win).1 = true
    ∧ rlGet (checkRateLimit t s k n win).2 k2 = rlGet s k2
    ∧ (∀ s2, rlGet s k2 = rlGet s2 k2 →
        (checkRateLimit t s k2 n win).1 = (checkRateLimit t s2 k2 n win).1) := by
  obtain ⟨n1, rfl⟩ : ∃ n1, n = n1 + 1 := ⟨n - 1, by omega⟩
  have step1 : checkRateLimit t [] k (n1 + 1) win
      = (true, [(k, { count := 1, resetTime := t + win })]) := by
    simp [checkRateLimit, rlGet, rlSet]
  have hfirst : rlCalls t k (n1 + 1) win (n1 + 1) []
      = (List.replicate (n1 + 1) true, [(k, { count := n1 + 1, resetTime := t + win })]) := by
    rw [rlCalls_succ]
    simp only [step1]
    rw [rlCalls_inside_window t k win (n1 + 1) n1 1 (by omega) (by omega)]
    rw [show 1 + n1 = n1 + 1 by omega]
    simp [List.replicate_succ]
  have hfull : rlCalls t k (n1 + 1) win (n1 + 1 + 1) []
      = (List.replicate (n1 + 1) true ++ [false],
         [(k, { count := n1 + 1, resetTime := t + win })]) := by
    rw [rlCalls_succ]
    simp only [step1]
    rw [rlCalls_hits_limit t k win (n1 + 1) n1 1 (by omega) (by omega)]
    simp [List.replicate_succ]
  refine ⟨by rw [hfirst], hfull, ?_, ?_, ?_⟩
  · rw [hfull]
    simp [checkRateLimit, rlGet, ht]
  · unfold checkRateLimit
    cases hg : rlGet s k with
    | none => simp [rlGet_rlSet_ne s k k2 _ hk]
    | some e =>
      by_cases h1 : t > e.resetTime
      · simp [h1, rlGet_rlSet_ne s k k2 _ hk]
      · by_cases h2 : e.count ≥ n1 + 1
        · simp [h1, h2]
        · simp [h1, h2, rlGet_rlSet_ne s k k2 _ hk]
  · intro s2 hs
    unfold checkRateLimit
    rw [hs]
    cases rlGet s2 k2 with
    | none => rfl
    | some e =>
      by_cases h1 : t > e.resetTime
      · simp [h1]
      · by_cases h2 : e.count ≥ n1 + 1
        · simp [h1, h2]
        · simp [h1, h2]

/-- C7 witness: three calls with budget three all pass, the fourth is
rejected with the counter left at three. -/
theorem c7_rate_limit_window_witness :
    rlCalls 5 "a" 3 100 4 []
      = (List.replicate 3 true ++ [false], [("a", { count := 3, resetTime := 105 })]) :=
  (c7_rate_limit_window "a" "b" 3 100 5 200 [] (by decide) (by decide) (by decide)).2.1

end Vns


namespace Vns

/-! ## Claims C8 and C10 -/

/-- The loopback and private ranges named by the specification:
localhost, the loopback address, and the 192.168, 10 and 172.16
prefixes. -/
def specPrivateHost (h : String) : Bool :=
  h == "localhost" || h == "127.0.0.1" || strBegins h "192.168."
    || strBegins h "10." || strBegins h "172.16."

theorem listBegins_append (cs p q : List Char) (h : listBegins cs (p ++ q) = true) :
    listBegins cs p = true := by
  induction p generalizing cs with
  | nil => simp [listBegins]
  | cons a p ih =>
    cases cs with
    | nil => simp [listBegins] at h
    | cons c cs =>
      simp only [List.cons_append, listBegins, Bool.and_eq_true] at h ⊢
      exact ⟨h.1, ih cs h.2⟩

theorem strBegins_172_of_17216 (h : String) (hb : strBegins h "172.16." = true) :
    strBegins h "172." = true := by
  have hsplit : "172.16.".toList = "172.".toList ++ "16.".toList := by decide
  unfold strBegins at hb ⊢
  rw [hsplit] at hb
  exact listBegins_append _ _ _ hb

theorem spec_imp_local (h : String) (hs : specPrivateHost h = true) :
    isLocalPrivateHost h = true := by
  unfold specPrivateHost at hs
  unfold isLocalPrivateHost
  simp only [Bool.or_eq_true] at hs ⊢
  rcases hs with ((((h1 | h2) | h3) | h4) | h5)
  · exact Or.inl (Or.inl (Or.inl (Or.inl h1)))
  · exact Or.inl (Or.inl (Or.inl (Or.inr h2)))
  · exact Or.inl (Or.inl (Or.inr h3))
  · exact Or.inl (Or.inr h4)
  · exact Or.inr (strBegins_172_of_17216 h h5)

/-- The final assembly of validateUrl reports invalid whenever the
collected error list is nonempty. -/
theorem valUrl_assemble (e1 e2 e3 : List String)
    (h : 0 < e1.length + e2.length + e3.length) :
    (if (e1 ++ e2 ++ e3).length > 0 then
        ({ isValid := false, errors := e1 ++ e2 ++ e3 } : ValidationResult)
      else { isValid := true, errors := [] })
      = { isValid := false, errors := e1 ++ e2 ++ e3 } := by
  rw [if_pos]
  simp [List.length_append]
  omega

/-- C8: every URL that the URL constructor parses whose scheme is
neither http nor https, and every parsed URL whose hostname is
localhost, the loopback address, or in one of the 192.168, 10 or
172.16 lexical prefixes, is reported invalid by validateUrl. -/
theorem c8_validateUrl_rejects (url : String) (u : UrlParts)
    (hp : parseUrl url = some u)
    (h : (u.protocol ≠ "http:" ∧ u.protocol ≠ "https:") ∨ specPrivateHost u.hostname = true) :
    (validateUrl url).isValid = false := by
  have h0 : ¬ (url = "") := by
    intro he
    rw [he] at hp
    simp [parseUrl] at hp
  unfold validateUrl
  rw [if_neg h0, hp]
  simp only []
  rw [valUrl_assemble]
  rcases h with ⟨hp1, hp2⟩ | hpriv
  · have hc : (u.protocol == "http:" || u.protocol == "https:") = false := by
      simp [hp1, hp2]
    simp only [hc]
    simp
  · have hc : isLocalPrivateHost u.hostname = true := spec_imp_local _ hpriv
    simp [hc]

/-- C8 witness: a scheme outside http and https, and a private-range
hostname, both rejected. -/
theorem c8_validateUrl_rejects_witness :
    (validateUrl "ftp://example.com/file.txt").isValid = false
    ∧ (validateUrl "http://192.168.1.1").isValid = false :=
  ⟨c8_validateUrl_rejects "ftp://example.com/file.txt"
      { protocol := "ftp:", hostname := "example.com" } (by rfl) (Or.inl (by decide)),
   c8_validateUrl_rejects "http://192.168.1.1"
      { protocol := "http:", hostname := "192.168.1.1" } (by rfl) (Or.inr (by decide))⟩

/-- C10: every parsed URL whose hostname begins with the characters 172
and a dot, including public addresses outside the private 172.16.0.0/12
block, is reported invalid by validateUrl with the
local-or-private-address error: the private-range check of the code is
strictly broader than the 172.16 prefix of the specification. -/
theorem c10_172_prefix_rejected (url : String) (u : UrlParts)
    (hp : parseUrl url = some u)
    (h17 : strBegins u.hostname "172." = true) :
    (validateUrl url).isValid = false
    ∧ "Local/private IP addresses are not allowed" ∈ (validateUrl url).errors := by
  have h0 : ¬ (url = "") := by
    intro he
    rw [he] at hp
    simp [parseUrl] at hp
  have hloc : isLocalPrivateHost u.hostname = true := by
    unfold isLocalPrivateHost
    simp [h17]
  constructor
  · unfold validateUrl
    rw [if_neg h0, hp]
    simp only []
    rw [valUrl_assemble]
    simp [hloc]
  · unfold validateUrl
    rw [if_neg h0, hp]
    simp only []
    rw [valUrl_assemble]
    · simp [hloc]
    · simp [hloc]

/-- C10 witness: the public address 172.217.0.0 is rejected as local
or private. -/
theorem c10_172_prefix_rejected_witness :
    (validateUrl "http://172.217.0.0").isValid = false
    ∧ "Local/private IP addresses are not allowed" ∈ (validateUrl "http://172.217.0.0").errors :=
  c10_172_prefix_rejected "http://172.217.0.0"
    { protocol := "http:", hostname := "172.217.0.0" } (by rfl) (by decide)

end Vns

namespace Vns

/-! ## Claims C5 and C9 -/

mutual

/-- A value containing no blob anywhere (a plain JSON tree, which the
serialize-then-parse deep copy reproduces exactly). -/
def blobFree : J → Bool
  | .null => true
  | .bool _ => true
  | .num _ => true
  | .str _ => true
  | .arr items => blobFreeList items
  | .obj fields => blobFreeFields fields
  | .blob _ => false

def blobFreeList : JList → Bool
  | .nil => true
  | .cons h t => blobFree h && blobFreeList t

def blobFreeFields : JFields → Bool
  | .nil => true
  | .cons _ v t => blobFree v && blobFreeFields t

end

mutual

theorem jsonRoundTrip_id : ∀ v : J, blobFree v = true → jsonRoundTrip v = v
  | .null, _ => rfl
  | .bool _, _ => rfl
  | .num _, _ => rfl
  | .str _, _ => rfl
  | .arr items, h => by
    rw [jsonRoundTrip, jsonRoundTripList_id items (by simpa [blobFree] using h)]
  | .obj fields, h => by
    rw [jsonRoundTrip, jsonRoundTripFields_id fields (by simpa [blobFree] using h)]

theorem jsonRoundTripList_id : ∀ items : JList, blobFreeList items = true →
    jsonRoundTripList items = items
  | .nil, _ => rfl
  | .cons x t, h => by
    have hx : blobFree x = true := by
      have := h
      simp [blobFreeList, Bool.and_eq_true] at this
      exact this.1
    have ht : blobFreeList t = true := by
      have := h
      simp [blobFreeList, Bool.and_eq_true] at this
      exact this.2
    rw [jsonRoundTripList, jsonRoundTrip_id x hx, jsonRoundTripList_id t ht]

theorem jsonRoundTripFields_id : ∀ fields : JFields, blobFreeFields fields = true →
    jsonRoundTripFields fields = fields
  | .nil, _ => rfl
  | .cons k v t, h => by
    have hv : blobFree v = true := by
      have := h
      simp [blobFreeFields, Bool.and_eq_true] at this
      exact this.1
    have ht : blobFreeFields t = true := by
      have := h
      simp [blobFreeFields, Bool.and_eq_true] at this
      exact this.2
    rw [jsonRoundTripFields, jsonRoundTrip_id v hv, jsonRoundTripFields_id t ht]

end

theorem sanitizeData_obj (fields : JFields) :
    sanitizeData (.obj fields) = .obj (dropReservedTop (jsonRoundTripFields fields)) := rfl

theorem lookup_dropReserved_reserved : ∀ (fs : JFields) (rn : String),
    reservedNames.contains rn = true → (dropReservedTop fs).lookup rn = none
  | .nil, _, _ => rfl
  | .cons k v t, rn, h => by
    by_cases hk : k ∈ reservedNames
    · simp [dropReservedTop, hk, lookup_dropReserved_reserved t rn h]
    · have hne : k ≠ rn := by
        intro he
        rw [he] at hk
        exact hk (by simpa using h)
      simp [dropReservedTop, hk, JFields.lookup, hne, lookup_dropReserved_reserved t rn h]

theorem lookup_dropReserved_keep : ∀ (fs : JFields) (key : String),
    reservedNames.contains key = false →
    (dropReservedTop fs).lookup key = fs.lookup key
  | .nil, _, _ => rfl
  | .cons k v t, key, h => by
    by_cases hk : k ∈ reservedNames
    · have hne : k ≠ key := by
        intro he
        rw [he] at hk
        have : reservedNames.contains key = true := by simpa using hk
        rw [this] at h
        cases h
      simp [dropReservedTop, hk, JFields.lookup, hne, lookup_dropReserved_keep t key h]
    · by_cases hke : k == key
      · simp [dropReservedTop, hk, JFields.lookup, hke]
      · simp [dropReservedTop, hk, JFields.lookup, hke, lookup_dropReserved_keep t key h]

theorem lookup_jsonRoundTripFields : ∀ (fs : JFields) (k : String),
    (jsonRoundTripFields fs).lookup k = (fs.lookup k).map jsonRoundTrip
  | .nil, _ => rfl
  | .cons k0 v t, k => by
    by_cases hk : k0 == k
    · simp [jsonRoundTripFields, JFields.lookup, hk]
    · simp [jsonRoundTripFields, JFields.lookup, hk, lookup_jsonRoundTripFields t k]

theorem storeGet_storePut (st : GenStore) (k : DbKey) (v : J) :
    storeGet (storePut st k v) k = some v := by
  induction st with
  | nil => simp [storePut, storeGet]
  | cons p t ih =>
    by_cases hk : p.1 == k
    · simp [storePut, storeGet, hk]
    · simp [storePut, storeGet, hk, ih]

/-- C5, counterexample: put followed by get returns the record with its
nested reserved key intact (sanitizeData touches only the top level),
while sanitizeObject on the same record drops the whole nested object;
the two results differ, so the persisted record is not the
sanitizeObject image of the input. -/
def nestedReservedRecord : J :=
  .obj (.ofList [("a", .obj (.ofList [("constructor", .num 1)]))])

theorem c5_counterexample_get_is_not_sanitizeObject :
    dbPut "records" [] nestedReservedRecord (.ks "k1")
      = .ok [(.ks "k1", nestedReservedRecord)]
    ∧ dbGet "records" [(.ks "k1", nestedReservedRecord)] (.ks "k1")
      = .ok (some nestedReservedRecord)
    ∧ sanitizeObject nestedReservedRecord 0 = .ok (.obj .nil)
    ∧ nestedReservedRecord ≠ .obj .nil := by
  refine ⟨by rfl, by rfl, by rfl, by decide⟩

/-- C5, amended: for every valid store name and valid key, put followed
by get returns a value deep-equal to sanitizeData of the record (the
JSON deep copy with reserved keys removed at the top level only), not
to sanitizeObject of the record. -/
theorem c5_amended_roundtrip_is_sanitizeData (name : String) (st : GenStore) (r : J)
    (k : DbKey) (hn : validateStoreName name = .ok ()) (hk : validateKey k = .ok ()) :
    ∃ st2, dbPut name st r k = .ok st2 ∧ dbGet name st2 k = .ok (some (sanitizeData r)) := by
  refine ⟨storePut st k (sanitizeData r), ?_, ?_⟩
  · simp only [dbPut, hn, hk]
    rfl
  · simp only [dbGet, hn, hk, storeGet_storePut]
    rfl

/-- C5 witness for the amended round trip, at a concrete store, record
and key. -/
theorem c5_amended_roundtrip_is_sanitizeData_witness :
    ∃ st2, dbPut "records" [] (.str "x") (.ks "k1") = .ok st2
      ∧ dbGet "records" st2 (.ks "k1") = .ok (some (sanitizeData (.str "x"))) :=
  c5_amended_roundtrip_is_sanitizeData "records" [] (.str "x") (.ks "k1") (by rfl) (by rfl)

/-- C9: the pre-storage sanitization of put removes reserved keys only
at the top level of the JSON deep copy: every reserved top-level key is
absent from the sanitized record, a non-reserved top-level field
holding a sub-object is kept with the sub-object copied verbatim, a
key of that sub-object (a reserved one included) still maps to its
blob-free value unchanged, and put persists exactly the sanitizeData
image of the record. -/
theorem c9_sanitizeData_top_level_only (name : String) (st : GenStore) (k : DbKey)
    (fields sub : JFields) (key k2 : String) (v2 : J)
    (hn : validateStoreName name = .ok ()) (hk : validateKey k = .ok ())
    (hkey : reservedNames.contains key = false)
    (hsub : fields.lookup key = some (.obj sub))
    (hv : sub.lookup k2 = some v2) (hbf : blobFree v2 = true) :
    (∀ rn, reservedNames.contains rn = true → (sanitizeData (.obj fields)).get? rn = none)
    ∧ (sanitizeData (.obj fields)).get? key = some (.obj (jsonRoundTripFields sub))
    ∧ (jsonRoundTripFields sub).lookup k2 = some v2
    ∧ ∃ st2, dbPut name st (.obj fields) k = .ok st2
        ∧ storeGet st2 k = some (sanitizeData (.obj fields)) := by
  refine ⟨?_, ?_, ?_, ?_⟩
  · intro rn hrn
    rw [sanitizeData_obj]
    show (dropReservedTop (jsonRoundTripFields fields)).lookup rn = none
    exact lookup_dropReserved_reserved _ rn hrn
  · rw [sanitizeData_obj]
    show (dropReservedTop (jsonRoundTripFields fields)).lookup key = _
    rw [lookup_dropReserved_keep _ key hkey, lookup_jsonRoundTripFields, hsub]
    rfl
  · rw [lookup_jsonRoundTripFields, hv]
    simp [jsonRoundTrip_id v2 hbf]
  · refine ⟨storePut st k (sanitizeData (.obj fields)), ?_, ?_⟩
    · simp only [dbPut, hn, hk]
      rfl
    · simp [storeGet_storePut]

/-- C9 witness: a record with a sub-object holding a proto key, put
under a concrete key. -/
def c9Fields : JFields := .ofList [("a", .obj (.ofList [("__proto__", .num 1)]))]

def c9Sub : JFields := .ofList [("__proto__", .num 1)]

theorem c9_sanitizeData_top_level_only_witness :
    (sanitizeData (.obj c9Fields)).get? "a" = some (.obj (jsonRoundTripFields c9Sub)) :=
  (c9_sanitizeData_top_level_only "records" [] (.ks "x") c9Fields c9Sub "a" "__proto__"
      (.num 1) (by rfl) (by rfl) (by decide) (by rfl) (by rfl) (by rfl)).2.1

end Vns


namespace Vns

/-! ## Claim C2 -/

theorem lookup_filter_ne (l : List (String × J)) (key : String) :
    List.lookup key (List.filter (fun e => !(e.1 == key)) l) = none := by
  induction l with
  | nil => rfl
  | cons p t ih =>
    by_cases hp : p.1 = key
    · simp [List.filter_cons, hp, ih]
    · have hb : (key == p.1) = false := by
        simp [beq_iff_eq]
        exact Ne.symm hp
      simp [List.filter_cons, hp, ih, List.lookup, hb]

/-- The successful path of AvatarsService.delete, as one equation: with
a valid, nonempty, non-reserved key, the run deletes the indexed image
keys that pass key validation and then the abstract, reporting no
error. -/
theorem avatarsDelete_ok_eq (db : AvatarsDb) (key : String)
    (hv : (validateString (.str key) 64).isValid = true)
    (hne : ¬(key = ""))
    (hres : reservedNames.contains (lowerStr key) = false) :
    avatarsDelete db key none =
      { err := none
        db := { abstracts := List.filter (fun e => !(e.1 == key)) db.abstracts
                images := List.filter (fun e =>
                  !(((List.filter (fun e2 => e2.1.2 == key && imageKeyOk e2.1) db.images).map
                      Prod.fst).contains e.1)) db.images }
        ops := [.clearIndexOp, .deleteAbstractOp] } := by
  simp only [avatarsDelete, clearIndexImagesRun, validateKey, hv, hres, hne,
    Bool.not_true, Bool.false_eq_true, if_false]

/-- The database holding one abstract and two images of extension k. -/
def twoImageDb : AvatarsDb :=
  { abstracts := [("k", .str "A")],
    images := [(("i1", "k"), .str "I1"), (("i2", "k"), .str "I2")] }

/-- C2, counterexample: when the index-clear step fails partway (here
after deleting the first of the two indexed images), the abstract
deletion is not attempted: the operation rejects with the generic
message, the abstract delete never begins (the operation list holds
only the index clear), and the AbstractRecord is still present. -/
theorem c2_counterexample_abstract_delete_skipped :
    avatarsDelete twoImageDb "k" (some 1)
      = { err := some "Failed to delete avatar"
          db := { abstracts := [("k", .str "A")], images := [(("i2", "k"), .str "I2")] }
          ops := [.clearIndexOp] }
    ∧ DbOp.deleteAbstractOp ∉ (avatarsDelete twoImageDb "k" (some 1)).ops
    ∧ List.lookup "k" (avatarsDelete twoImageDb "k" (some 1)).db.abstracts
        = some (.str "A") := by
  refine ⟨by rfl, by decide, by rfl⟩

/-- C2, amended: for every extension key passing key validation (a
valid string of at most 64 characters, nonempty, not a reserved name)
over a database whose stored image keys pass key validation, delete
clears every ImageRecord indexed under the key and then deletes the
AbstractRecord; but when the index-clear step fails partway the
AbstractRecord deletion is not attempted (see the counterexample): the
then-chained deletion is skipped and the operation rejects. -/
theorem c2_amended_clear_then_delete (db : AvatarsDb) (key : String)
    (hv : (validateString (.str key) 64).isValid = true)
    (hne : ¬(key = ""))
    (hres : reservedNames.contains (lowerStr key) = false)
    (hkeys : ∀ e ∈ db.images, imageKeyOk e.1 = true) :
    (avatarsDelete db key none).err = none
    ∧ (avatarsDelete db key none).ops = [.clearIndexOp, .deleteAbstractOp]
    ∧ (∀ e ∈ (avatarsDelete db key none).db.images, e.1.2 ≠ key)
    ∧ List.lookup key (avatarsDelete db key none).db.abstracts = none := by
  rw [avatarsDelete_ok_eq db key hv hne hres]
  refine ⟨rfl, rfl, ?_, ?_⟩
  · intro e he hcontra
    rw [List.mem_filter] at he
    obtain ⟨hmem, hpred⟩ := he
    have hnc : ((List.filter (fun e2 => e2.1.2 == key && imageKeyOk e2.1) db.images).map
        Prod.fst).contains e.1 = false := by
      cases hcc : ((List.filter (fun e2 => e2.1.2 == key && imageKeyOk e2.1) db.images).map
          Prod.fst).contains e.1 with
      | false => rfl
      | true => rw [hcc] at hpred; cases hpred
    have hmemof : e.1 ∈ (List.filter (fun e2 => e2.1.2 == key && imageKeyOk e2.1) db.images).map
        Prod.fst := by
      refine List.mem_map.mpr ⟨e, ?_, rfl⟩
      rw [List.mem_filter]
      refine ⟨hmem, ?_⟩
      simp [hcontra, hkeys e hmem]
    have hct : ((List.filter (fun e2 => e2.1.2 == key && imageKeyOk e2.1) db.images).map
        Prod.fst).contains e.1 = true := by
      simpa using hmemof
    rw [hct] at hnc
    cases hnc
  · exact lookup_filter_ne _ _

/-- C2 witness for the amended deletion contract, on the concrete
two-image database. -/
theorem c2_amended_clear_then_delete_witness :
    (avatarsDelete twoImageDb "k" none).err = none
    ∧ (avatarsDelete twoImageDb "k" none).ops = [.clearIndexOp, .deleteAbstractOp] :=
  ⟨(c2_amended_clear_then_delete twoImageDb "k" (by rfl) (by decide) (by decide)
      (by decide)).1,
   (c2_amended_clear_then_delete twoImageDb "k" (by rfl) (by decide) (by decide)
      (by decide)).2.1⟩

end Vns
